import Mathlib

/-!
# sdg-voronoi-edges: Voronoi edges of a segment Delaunay graph

A shallow embedding of `GridMapPartitioner/external/sdg-voronoi-edges.cpp`.

The program is a single `main`.  It reads sites from a file, inserts them in
a segment Delaunay graph `sdg`, asserts the validity of the graph and then
walks through the finite edges, printing for each one the primitive held by
`sdg.primal(e)`.

The graph itself (`insert`, `is_valid`, `finite_edges`, `primal`, the face and
vertex accessors) is the work of a library whose code is not part of the
program.  Its operations are parameters of the embedding, collected in the
structure `SDG2`; `main` is embedded over an arbitrary `SDG2`.
-/

namespace SdgVoronoiEdges

/-! ## Data model -/

/-- The number type of the coordinates. -/
abbrev FT := Rat

/-- A point of the plane. -/
structure Point_2 where
  x : FT
  y : FT
deriving DecidableEq, Repr

/-- A site: a point, or a segment given by its two endpoints. -/
inductive Site_2 where
  | point (p : Point_2)
  | segment (p1 p2 : Point_2)
deriving DecidableEq, Repr

/-- The line `a x + b y + c = 0`. -/
structure Line_2 where
  a : FT
  b : FT
  c : FT
deriving DecidableEq, Repr

/-- A bounded straight segment. -/
structure Segment_2 where
  source : Point_2
  target : Point_2
deriving DecidableEq, Repr

/-- A ray: its origin and a direction vector. -/
structure Ray_2 where
  source : Point_2
  dx : FT
  dy : FT
deriving DecidableEq, Repr

/-- A piece of parabola: focus `center`, directrix `line`, end points `p1`
and `p2` (the members `main` prints). -/
structure Parabola_segment_2 where
  center : Point_2
  line : Line_2
  p1 : Point_2
  p2 : Point_2
deriving DecidableEq, Repr

/-- Vertices are addressed by stable indices. -/
abbrev Vertex_handle := Nat

/-- Faces are addressed by stable indices. -/
abbrev Face_handle := Nat

/-- An edge `(f, i)`: the edge of face `f` opposite to its vertex of local
index `i` (`e.first`, `e.second` in `main`). -/
abbrev Edge := Face_handle × Nat

/-- A `CGAL::Object`: a box that is empty or holds one value of one type.
`other` stands for a value of a type `main` does not ask for. -/
inductive Object where
  | empty
  | line (l : Line_2)
  | segment (s : Segment_2)
  | ray (r : Ray_2)
  | parabola_segment (ps : Parabola_segment_2)
  | other
deriving DecidableEq, Repr

/-- The call `CGAL::assign(l, o)` for a `Line_2` target: it succeeds exactly
when the object holds a line. -/
def assign_line : Object → Option Line_2
  | .line l => some l
  | _ => none

/-- The call `CGAL::assign(s, o)` for a `Segment_2` target. -/
def assign_segment : Object → Option Segment_2
  | .segment s => some s
  | _ => none

/-- The call `CGAL::assign(r, o)` for a `Ray_2` target. -/
def assign_ray : Object → Option Ray_2
  | .ray r => some r
  | _ => none

/-- The call `CGAL::assign(ps, o)` for a `Parabola_segment_2` target. -/
def assign_parabola : Object → Option Parabola_segment_2
  | .parabola_segment ps => some ps
  | _ => none

/-- The operations of the segment Delaunay graph that `main` calls, over the
type `T` of graph states.  They are parameters: their code is the library's. -/
structure SDG2 (T : Type) where
  /-- The graph of `SDG2 sdg;`, before any insertion. -/
  empty : T
  /-- The call `sdg.insert(site)`: the graph after the insertion and the returned
  vertex handle (`none` for a null handle). -/
  insert : T → Site_2 → T × Option Vertex_handle
  /-- The call `sdg.is_valid(verbose, level)`. -/
  is_valid : T → Bool → Nat → Bool
  /-- The edges from `finite_edges_begin()` to `finite_edges_end()`. -/
  finite_edges : T → List Edge
  /-- The call `sdg.ccw(i)`. -/
  ccw : Nat → Nat
  /-- The call `sdg.cw(i)`. -/
  cw : Nat → Nat
  /-- The call `f->vertex(i)`. -/
  vertex : T → Face_handle → Nat → Vertex_handle
  /-- The call `sdg.tds().mirror_vertex(f, i)`. -/
  mirror_vertex : T → Face_handle → Nat → Vertex_handle
  /-- The call `sdg.is_infinite(v)`. -/
  is_infinite : T → Vertex_handle → Bool
  /-- The call `v->site()`. -/
  site : T → Vertex_handle → Site_2
  /-- The call `sdg.primal(e)`. -/
  primal : T → Edge → Object

/-! ## What `main` writes and does -/

/-- One line of standard output.  The first four are the lines of the four
`cout` statements that follow `sdg.primal(e)`; the last two are the lines the
comment of the vertex loop announces, `vid[i] : inf_vertex` for the infinite
vertex and `vid[i] : v[i]->site()` otherwise, whose `cout` statements the
source holds in comments. -/
inductive Output where
  | l (l : Line_2)
  | s (s : Segment_2)
  | r (r : Ray_2)
  | p (p1 p2 center : Point_2) (line : Line_2)
  | vertex_inf (id : Char)
  | vertex_site (id : Char) (s : Site_2)
deriving DecidableEq, Repr

/-- The four kinds of primitive. -/
inductive Kind where
  | Line
  | Segment
  | Ray
  | ParabolicArc
deriving DecidableEq, Repr

/-- The tag that opens an output line. -/
def Output.tag : Output → Option Char
  | .l _ => some 'l'
  | .s _ => some 's'
  | .r _ => some 'r'
  | .p _ _ _ _ => some 'p'
  | .vertex_inf _ => none
  | .vertex_site _ _ => none

/-- The kind of primitive an output line records, if it records one. -/
def Output.kind : Output → Option Kind
  | .l _ => some .Line
  | .s _ => some .Segment
  | .r _ => some .Ray
  | .p _ _ _ _ => some .ParabolicArc
  | .vertex_inf _ => none
  | .vertex_site _ _ => none

/-- What `main` does that can be observed, in order. -/
inductive Event where
  | insert (s : Site_2)
  | is_valid (verbose : Bool) (level : Nat)
  | print (o : Output)
deriving DecidableEq, Repr

/-- How `main` ends: `return 0`, or a failed `assert`. -/
inductive Exit where
  | returned (code : Int)
  | assert_failed
deriving DecidableEq, Repr

/-- A run of `main`: the events, the graph it ended with, and the exit. -/
structure Run (T : Type) where
  trace : List Event
  sdg : T
  exit : Exit

/-- The output lines of a trace. -/
def printed : List Event → List Output
  | [] => []
  | .print o :: es => o :: printed es
  | _ :: es => printed es

/-- The sites passed to `insert` in a trace. -/
def inserted : List Event → List Site_2
  | [] => []
  | .insert s :: es => s :: inserted es
  | _ :: es => inserted es

/-- The array `char vid[] = {'A', 'B', 'C', 'D'};`. -/
def vid : List Char := ['A', 'B', 'C', 'D']

/-- The array `v` of `main`: the four vertices defining the Voronoi edge. -/
def quadruple {T : Type} (L : SDG2 T) (sdg : T) (e : Edge) : List Vertex_handle :=
  [ L.vertex sdg e.1 (L.ccw e.2),
    L.vertex sdg e.1 (L.cw e.2),
    L.vertex sdg e.1 e.2,
    L.mirror_vertex sdg e.1 e.2 ]

/-- The vertex of the quadruple that goes under the letter `c` of `vid`. -/
def named_vertex {T : Type} (L : SDG2 T) (sdg : T) (e : Edge) (c : Char) :
    Option Vertex_handle :=
  (vid.zip (quadruple L sdg e)).lookup c

/-- The four `if (CGAL::assign(..., o)) cout << ...` statements, in order. -/
def print_primal (o : Object) : List Output :=
  (match assign_line o with
    | some l => [Output.l l]
    | none => []) ++
  (match assign_segment o with
    | some s => [Output.s s]
    | none => []) ++
  (match assign_ray o with
    | some r => [Output.r r]
    | none => []) ++
  (match assign_parabola o with
    | some ps => [Output.p ps.p1 ps.p2 ps.center ps.line]
    | none => [])

/-- The loop `for (int i = 0; i < 4; i++)` over the quadruple: the test
`sdg.is_infinite(v[i])` is made, and both branches are empty (their `cout`
statements are commented out). -/
def print_vertices {T : Type} (L : SDG2 T) (sdg : T) (v : List Vertex_handle) :
    List Output :=
  (List.range 4).flatMap fun i =>
    if L.is_infinite sdg (v.getD i 0) then [] else []

/-- The body of the edge loop for the edge `e`. -/
def edge_body {T : Type} (L : SDG2 T) (sdg : T) (e : Edge) : List Output :=
  let v := quadruple L sdg e
  let o := L.primal sdg e
  print_primal o ++ print_vertices L sdg v

/-- The edge loop over the edges still to visit. -/
def edge_loop {T : Type} (L : SDG2 T) (sdg : T) : List Edge → List Output
  | [] => []
  | e :: es => edge_body L sdg e ++ edge_loop L sdg es

/-- The loop `while ( ifs >> site ) { sdg.insert( site ); }`.  The stream is
the list of the records still to read: `some s` is a record that reads as the
site `s`, `none` a record that cannot be read; the end of the list is the end
of the file.  The extraction fails on `none` and at the end, which ends the
loop.  The handle `insert` returns is dropped. -/
def read_sites {T : Type} (L : SDG2 T) : List (Option Site_2) → T → T × List Event
  | [], sdg => (sdg, [])
  | none :: _, sdg => (sdg, [])
  | some s :: rest, sdg =>
    let r := read_sites L rest (L.insert sdg s).1
    (r.1, Event.insert s :: r.2)

/-- The program.  `ifs` is `none` when the file cannot be opened and the
stream of its records otherwise.  `assert` is the one of `<cassert>` with
`NDEBUG` not defined, as in the source: a false condition ends the run. -/
def main {T : Type} (L : SDG2 T) (ifs : Option (List (Option Site_2))) : Run T :=
  match ifs with
  | none => ⟨[], L.empty, .assert_failed⟩
  | some stream =>
    let r := read_sites L stream L.empty
    let sdg := r.1
    if L.is_valid sdg true 1 then
      ⟨r.2 ++ Event.is_valid true 1 :: (edge_loop L sdg (L.finite_edges sdg)).map Event.print,
        sdg, .returned 0⟩
    else
      ⟨r.2 ++ [Event.is_valid true 1], sdg, .assert_failed⟩

/-! ## The classification of the primal, modelled from the specification -/

/-- Modelled from the spec: the resolution of a quadruple vertex (§4.4, last
sentence), `none` for the infinite vertex ("at infinity") and the concrete site
otherwise.  The test and the site are the library's `is_infinite` and `site`. -/
def resolve {T : Type} (L : SDG2 T) (sdg : T) (v : Vertex_handle) : Option Site_2 :=
  if L.is_infinite sdg v then none else some (L.site sdg v)

/-- The resolution of the vertex that `main` holds under the letter `c`. -/
def resolved {T : Type} (L : SDG2 T) (sdg : T) (e : Edge) (c : Char) : Option Site_2 :=
  (named_vertex L sdg e c).bind (resolve L sdg)

/-- Modelled from the spec: "exactly one of A, B is a SegmentSite and the other
a PointSite not incident to it" (§4.4), incident meaning that the point is an
endpoint of the segment. -/
def parabolic : Option Site_2 → Option Site_2 → Bool
  | some (.point p), some (.segment q1 q2) => p ≠ q1 && p ≠ q2
  | some (.segment q1 q2), some (.point p) => p ≠ q1 && p ≠ q2
  | _, _ => false

/-- Modelled from the spec: the classification rule of §4.4, whose code is the
library's `primal`.  The bullets are read in this order: unbounded on both the
C and the D side gives a line; bounded on exactly one side gives a ray;
bounded on both sides gives a parabolic arc when the bisector of A and B is
not straight, and a segment otherwise. -/
def classify (a b c d : Option Site_2) : Kind :=
  if c.isNone && d.isNone then .Line
  else if c.isNone || d.isNone then .Ray
  else if parabolic a b then .ParabolicArc
  else .Segment

/-- Modelled from the spec: the inexact constructions of the Geometric Kernel
(§4.1) that compute the numeric parameters of a primitive from the resolved
quadruple.  Their code is the library's; they are parameters. -/
structure Constructions where
  line : Option Site_2 → Option Site_2 → Option Site_2 → Option Site_2 → Line_2
  segment : Option Site_2 → Option Site_2 → Option Site_2 → Option Site_2 → Segment_2
  ray : Option Site_2 → Option Site_2 → Option Site_2 → Option Site_2 → Ray_2
  parabola : Option Site_2 → Option Site_2 → Option Site_2 → Option Site_2 →
    Parabola_segment_2

/-- Modelled from the spec: the object returned for a resolved quadruple, the
primitive of the kind `classify` gives with the parameters the kernel
constructs (§4.4).  The library's `primal` is missing from the sources. -/
def primal_object (K : Constructions) (a b c d : Option Site_2) : Object :=
  match classify a b c d with
  | .Line => .line (K.line a b c d)
  | .Segment => .segment (K.segment a b c d)
  | .Ray => .ray (K.ray a b c d)
  | .ParabolicArc => .parabola_segment (K.parabola a b c d)

/-- Modelled from the spec: the library whose `primal` follows §4.4 on the
quadruple that `main` computes; all other operations are those of `L`. -/
def with_primal_spec {T : Type} (L : SDG2 T) (K : Constructions) : SDG2 T :=
  { L with
    primal := fun sdg e =>
      primal_object K (resolved L sdg e 'A') (resolved L sdg e 'B')
        (resolved L sdg e 'C') (resolved L sdg e 'D') }

/-! ## A concrete graph: the three point sites (0,0), (2,0), (1,2) -/

/-- Modelled from the spec: a face (§3), an oriented triangle of three vertices
with one neighbouring face per edge, the neighbour of index `i` lying across
the edge opposite to the vertex of index `i`. -/
structure Face where
  v : List Vertex_handle
  n : List Face_handle
deriving DecidableEq, Repr

/-- The vertex of local index `i`. -/
def Face.vertex (f : Face) (i : Nat) : Vertex_handle := f.v.getD i 0

/-- The neighbour of local index `i`. -/
def Face.neighbor (f : Face) (i : Nat) : Face_handle := f.n.getD i 0

/-- The local index of the vertex `v`. -/
def Face.index (f : Face) (v : Vertex_handle) : Nat := f.v.indexOf v

/-- The face of handle `f` in an arena of faces. -/
def face_at (fs : List Face) (f : Face_handle) : Face := fs.getD f ⟨[], []⟩

/-- The local index that follows `i` counterclockwise. -/
def tds_ccw (i : Nat) : Nat := (i + 1) % 3

/-- The local index that follows `i` clockwise. -/
def tds_cw (i : Nat) : Nat := (i + 2) % 3

/-- Modelled from the spec: the mirrored vertex across the edge `(f, i)` (§2),
the vertex of the neighbouring face that is not on the edge. -/
def tds_mirror_vertex (fs : List Face) (f : Face_handle) (i : Nat) : Vertex_handle :=
  let g := face_at fs ((face_at fs f).neighbor i)
  g.vertex (tds_ccw (g.index ((face_at fs f).vertex (tds_ccw i))))

/-- Modelled from the spec: the finite edges (§3), those with no infinite end
(the infinite vertex has handle `0`), each taken once, from the face of smaller
handle. -/
def tds_finite_edges (fs : List Face) : List Edge :=
  (List.range fs.length).flatMap fun f =>
    (List.range 3).filterMap fun i =>
      if (face_at fs f).vertex (tds_ccw i) ≠ 0 ∧ (face_at fs f).vertex (tds_cw i) ≠ 0
          ∧ f < (face_at fs f).neighbor i
      then some (f, i) else none

/-- Modelled from the spec: the combinatorial part of the Validator (§4.3),
three vertices and three neighbours per face and a symmetric adjacency. -/
def tds_is_valid (fs : List Face) : Bool :=
  (List.range fs.length).all fun f =>
    (face_at fs f).v.length == 3 && (face_at fs f).n.length == 3 &&
    (List.range 3).all fun i =>
      let g := face_at fs ((face_at fs f).neighbor i)
      g.neighbor (tds_ccw (g.index ((face_at fs f).vertex (tds_ccw i)))) == f

/-- The site (0,0). -/
def site1 : Site_2 := .point ⟨0, 0⟩

/-- The site (2,0). -/
def site2 : Site_2 := .point ⟨2, 0⟩

/-- The site (1,2). -/
def site3 : Site_2 := .point ⟨1, 2⟩

/-- The faces of the graph of the three sites `site1`, `site2`, `site3`
(vertices 1, 2, 3; vertex 0 is the infinite vertex): the bounded face and the
three unbounded faces around it.  Other lists of sites get no face. -/
def scenario_faces (t : List Site_2) : List Face :=
  if t = [site1, site2, site3] then
    [ ⟨[1, 2, 3], [1, 2, 3]⟩,
      ⟨[3, 2, 0], [3, 2, 0]⟩,
      ⟨[1, 3, 0], [1, 3, 0]⟩,
      ⟨[2, 1, 0], [2, 1, 0]⟩ ]
  else []

/-- The circumcentre of three points. -/
def circumcenter (p q r : Point_2) : Point_2 :=
  let d := 2 * (p.x * (q.y - r.y) + q.x * (r.y - p.y) + r.x * (p.y - q.y))
  let sp := p.x * p.x + p.y * p.y
  let sq := q.x * q.x + q.y * q.y
  let sr := r.x * r.x + r.y * r.y
  ⟨(sp * (q.y - r.y) + sq * (r.y - p.y) + sr * (p.y - q.y)) / d,
   (sp * (r.x - q.x) + sq * (p.x - r.x) + sr * (q.x - p.x)) / d⟩

/-- Constructions for point sites: the bisecting line of A and B, the ray from
the circumcentre of A, B and the finite one of C, D, the segment between two
circumcentres.  Quadruples with a segment site get parameters zero. -/
def scenario_constructions : Constructions where
  line := fun a b _ _ =>
    match a, b with
    | some (.point p), some (.point q) =>
      ⟨2 * (q.x - p.x), 2 * (q.y - p.y), p.x * p.x + p.y * p.y - q.x * q.x - q.y * q.y⟩
    | _, _ => ⟨0, 0, 0⟩
  segment := fun a b c d =>
    match a, b, c, d with
    | some (.point p), some (.point q), some (.point r), some (.point s) =>
      ⟨circumcenter p q r, circumcenter q p s⟩
    | _, _, _, _ => ⟨⟨0, 0⟩, ⟨0, 0⟩⟩
  ray := fun a b c d =>
    match a, b, c, d with
    | some (.point p), some (.point q), some (.point r), none =>
      ⟨circumcenter p q r, q.y - p.y, p.x - q.x⟩
    | some (.point p), some (.point q), none, some (.point s) =>
      ⟨circumcenter q p s, p.y - q.y, q.x - p.x⟩
    | _, _, _, _ => ⟨⟨0, 0⟩, 0, 0⟩
  parabola := fun _ _ _ _ => ⟨⟨0, 0⟩, ⟨0, 0, 0⟩, ⟨0, 0⟩, ⟨0, 0⟩⟩

/-- A library for the scenario: the state is the list of the sites of the
finite vertices (vertex `k + 1` carries the site of rank `k`), a site already
present is not inserted again, and the faces are those of `scenario_faces`. -/
def scenario_base : SDG2 (List Site_2) where
  empty := []
  insert := fun t s =>
    if s ∈ t then (t, some (t.indexOf s + 1)) else (t ++ [s], some (t.length + 1))
  is_valid := fun t _ _ => tds_is_valid (scenario_faces t)
  finite_edges := fun t => tds_finite_edges (scenario_faces t)
  ccw := tds_ccw
  cw := tds_cw
  vertex := fun t f i => (face_at (scenario_faces t) f).vertex i
  mirror_vertex := fun t f i => tds_mirror_vertex (scenario_faces t) f i
  is_infinite := fun _ v => v == 0
  site := fun t v => t.getD (v - 1) site1
  primal := fun _ _ => .empty

/-- The scenario library with the primal of the specification. -/
def scenario : SDG2 (List Site_2) :=
  with_primal_spec scenario_base scenario_constructions

/-- The scenario library with a validity check that fails. -/
def scenario_invalid : SDG2 (List Site_2) :=
  { scenario with is_valid := fun _ _ _ => false }

/-! ## The insertion of the Incremental Builder, modelled from the specification -/

/-- Modelled from the spec: the Triangulation (§3) as far as the contract of
`insert` (§4.2) fixes it, the arena of the finite vertices, given by their
sites (vertex `k` carries the site of rank `k`; a vertex is created on the
first insertion of its site and never destroyed), and a face structure `X`. -/
structure Triangulation (X : Type) where
  sites : List Site_2
  faces : X

/-- Modelled from the spec: the restructuring of the faces that restores the
Delaunay property once a vertex has been created for a new site (§4.2, third
item).  The library's algorithm is missing from the sources; it is a
parameter, given the faces, the sites present and the new site. -/
structure Restructuring (X : Type) where
  add : X → List Site_2 → Site_2 → X

/-- Modelled from the spec: `insert` for a PointSite (§4.2, first item).  A
point coincident with the site of an existing vertex returns that vertex and
leaves the triangulation unchanged; a new point gets a new vertex. -/
def insert_point {X : Type} (R : Restructuring X) (t : Triangulation X) (p : Point_2) :
    Triangulation X × Vertex_handle :=
  if Site_2.point p ∈ t.sites then (t, t.sites.indexOf (Site_2.point p))
  else (⟨t.sites ++ [Site_2.point p], R.add t.faces t.sites (Site_2.point p)⟩, t.sites.length)

/-- Modelled from the spec: `insert(site) -> Vertex` of the Incremental Builder
(§4.2), missing from the sources.  A SegmentSite first has its two endpoints
inserted as PointSites by this same operation and is then linked in as one
site; a zero-length segment is rejected and leaves the triangulation in its
prior state (no vertex is returned). -/
def insert_spec {X : Type} (R : Restructuring X) (t : Triangulation X) :
    Site_2 → Triangulation X × Option Vertex_handle
  | .point p => ((insert_point R t p).1, some (insert_point R t p).2)
  | .segment p q =>
    if p = q then (t, none)
    else
      let t2 := (insert_point R (insert_point R t p).1 q).1
      (⟨t2.sites ++ [Site_2.segment p q], R.add t2.faces t2.sites (Site_2.segment p q)⟩,
        some t2.sites.length)

/-- Modelled from the spec: the library whose `insert` follows §4.2; all other
operations are those of `L`. -/
def with_insert_spec {X : Type} (R : Restructuring X) (L : SDG2 (Triangulation X)) :
    SDG2 (Triangulation X) :=
  { L with insert := insert_spec R }

/-- A restructuring for a face structure that is the number of faces: each new
vertex adds two faces. -/
def counting : Restructuring Nat where
  add := fun n _ _ => n + 2

/-- A library over `Triangulation Nat`: the graph has no finite edge until
three sites are present, and then one whose primal is a line. -/
def counting_base : SDG2 (Triangulation Nat) where
  empty := ⟨[], 0⟩
  insert := fun t _ => (t, none)
  is_valid := fun _ _ _ => true
  finite_edges := fun t => if 3 ≤ t.sites.length then [(0, 0)] else []
  ccw := tds_ccw
  cw := tds_cw
  vertex := fun _ _ i => i
  mirror_vertex := fun _ _ _ => 0
  is_infinite := fun _ v => v == 0
  site := fun t v => t.sites.getD v site1
  primal := fun t _ => .line ⟨t.faces, 0, 0⟩

/-! ## Lemmas on the loops of `main` -/

theorem printed_append (a b : List Event) : printed (a ++ b) = printed a ++ printed b := by
  induction a with
  | nil => rfl
  | cons ev a ih => cases ev <;> simp [printed, ih]

theorem printed_map_print (os : List Output) : printed (os.map Event.print) = os := by
  induction os with
  | nil => rfl
  | cons o os ih => simp [printed, ih]

theorem inserted_append (a b : List Event) : inserted (a ++ b) = inserted a ++ inserted b := by
  induction a with
  | nil => rfl
  | cons ev a ih => cases ev <;> simp [inserted, ih]

theorem inserted_map_print (os : List Output) : inserted (os.map Event.print) = [] := by
  induction os with
  | nil => rfl
  | cons o os ih => simp [inserted, ih]

theorem inserted_map_insert (sites : List Site_2) :
    inserted (sites.map Event.insert) = sites := by
  induction sites with
  | nil => rfl
  | cons s sites ih => simp [inserted, ih]

theorem printed_map_insert (sites : List Site_2) :
    printed (sites.map Event.insert) = [] := by
  induction sites with
  | nil => rfl
  | cons s sites ih => simp [printed, ih]

/-- The reading loop only records insertions. -/
theorem read_sites_trace {T : Type} (L : SDG2 T) (stream : List (Option Site_2)) (sdg : T) :
    (read_sites L stream sdg).2 = (inserted (read_sites L stream sdg).2).map Event.insert := by
  induction stream generalizing sdg with
  | nil => rfl
  | cons r rest ih =>
    cases r with
    | none => rfl
    | some s =>
      simp only [read_sites, inserted, List.map_cons]
      rw [← ih]

/-- On records that all read, the reading loop is the left fold of `insert`. -/
theorem read_sites_all {T : Type} (L : SDG2 T) (sites : List Site_2) (sdg : T) :
    read_sites L (sites.map some) sdg =
      (sites.foldl (fun t s => (L.insert t s).1) sdg, sites.map Event.insert) := by
  induction sites generalizing sdg with
  | nil => rfl
  | cons s sites ih => simp [read_sites, ih]

/-- The reading loop stops at the first record that cannot be read. -/
theorem read_sites_stop {T : Type} (L : SDG2 T) (pre : List Site_2)
    (rest : List (Option Site_2)) (sdg : T) :
    read_sites L (pre.map some ++ none :: rest) sdg = read_sites L (pre.map some) sdg := by
  induction pre generalizing sdg with
  | nil => rfl
  | cons s pre ih => simp [read_sites, ih]

/-- The vertex loop writes nothing. -/
theorem print_vertices_nil {T : Type} (L : SDG2 T) (sdg : T) (v : List Vertex_handle) :
    print_vertices L sdg v = [] := by
  simp [print_vertices]

/-- The body of the edge loop writes what the four tests on the primal write. -/
theorem edge_body_eq {T : Type} (L : SDG2 T) (sdg : T) (e : Edge) :
    edge_body L sdg e = print_primal (L.primal sdg e) := by
  simp [edge_body, print_vertices_nil]

/-- The edge loop visits the edges in order. -/
theorem edge_loop_eq {T : Type} (L : SDG2 T) (sdg : T) (es : List Edge) :
    edge_loop L sdg es = es.flatMap (edge_body L sdg) := by
  induction es with
  | nil => rfl
  | cons e es ih => simp [edge_loop, ih]

/-- The lines of a line-by-line test of an object are primitives. -/
theorem print_primal_tag (ob : Object) (o : Output) (h : o ∈ print_primal ob) :
    o.tag.isSome = true := by
  cases ob <;>
    simp [print_primal, assign_line, assign_segment, assign_ray, assign_parabola] at h <;>
    subst h <;> rfl

/-- The output of a run that passes the `assert`s is the output of the edge
loop on the graph read; a run that fails one writes nothing. -/
theorem main_printed {T : Type} (L : SDG2 T) (stream : List (Option Site_2)) :
    printed (main L (some stream)).trace =
      if L.is_valid (read_sites L stream L.empty).1 true 1 then
        edge_loop L (read_sites L stream L.empty).1
          (L.finite_edges (read_sites L stream L.empty).1)
      else [] := by
  have h0 : printed (read_sites L stream L.empty).2 = [] := by
    rw [read_sites_trace, printed_map_insert]
  by_cases hv : L.is_valid (read_sites L stream L.empty).1 true 1 = true
  · simp [main, hv, printed_append, printed, printed_map_print, h0]
  · simp [main, hv, printed_append, printed, h0]

/-- The graph a run ends with is the graph read. -/
theorem main_sdg {T : Type} (L : SDG2 T) (stream : List (Option Site_2)) :
    (main L (some stream)).sdg = (read_sites L stream L.empty).1 := by
  by_cases hv : L.is_valid (read_sites L stream L.empty).1 true 1 = true <;> simp [main, hv]

/-! ## Lemmas on the modelled insertion -/

theorem insert_point_present {X : Type} (R : Restructuring X) (t : Triangulation X)
    (p : Point_2) (h : Site_2.point p ∈ t.sites) :
    insert_point R t p = (t, t.sites.indexOf (Site_2.point p)) := by
  simp [insert_point, h]

/-- No insertion of a point removes a site. -/
theorem insert_point_mono {X : Type} (R : Restructuring X) (t : Triangulation X)
    (p : Point_2) (s : Site_2) (h : s ∈ t.sites) : s ∈ (insert_point R t p).1.sites := by
  unfold insert_point
  split
  · exact h
  · simp [h]

/-- After the insertion of a point, the point is the site of a vertex. -/
theorem insert_point_mem {X : Type} (R : Restructuring X) (t : Triangulation X)
    (p : Point_2) : Site_2.point p ∈ (insert_point R t p).1.sites := by
  unfold insert_point
  split
  · assumption
  · simp

/-- No insertion removes a site. -/
theorem insert_spec_mono {X : Type} (R : Restructuring X) (t : Triangulation X)
    (s' s : Site_2) (h : s ∈ t.sites) : s ∈ (insert_spec R t s').1.sites := by
  cases s' with
  | point p => exact insert_point_mono R t p s h
  | segment p q =>
    by_cases hpq : p = q
    · simp [insert_spec, hpq, h]
    · simp only [insert_spec, hpq, if_false, List.mem_append]
      exact Or.inl (insert_point_mono R _ q s (insert_point_mono R t p s h))

/-- Once a point is present, the reading loop ends in the same graph with or
without one more record of that point. -/
theorem read_sites_repeat_tail {X : Type} (R : Restructuring X)
    (L : SDG2 (Triangulation X)) (p : Point_2) (l2 l3 : List (Option Site_2))
    (t : Triangulation X) (h : Site_2.point p ∈ t.sites) :
    (read_sites (with_insert_spec R L) (l2 ++ some (Site_2.point p) :: l3) t).1 =
      (read_sites (with_insert_spec R L) (l2 ++ l3) t).1 := by
  induction l2 generalizing t with
  | nil =>
    simp [read_sites, with_insert_spec, insert_spec, insert_point_present R t p h]
  | cons r l2 ih =>
    cases r with
    | none => rfl
    | some s =>
      simp only [List.cons_append, read_sites]
      exact ih _ (insert_spec_mono R t s _ h)

/-- The reading loop ends in the same graph with or without the repetition
of a point record. -/
theorem read_sites_repeat {X : Type} (R : Restructuring X)
    (L : SDG2 (Triangulation X)) (p : Point_2) (l1 l2 l3 : List (Option Site_2))
    (t : Triangulation X) :
    (read_sites (with_insert_spec R L)
        (l1 ++ some (Site_2.point p) :: (l2 ++ some (Site_2.point p) :: l3)) t).1 =
      (read_sites (with_insert_spec R L) (l1 ++ some (Site_2.point p) :: (l2 ++ l3)) t).1 := by
  induction l1 generalizing t with
  | nil =>
    simp only [List.nil_append, read_sites]
    apply read_sites_repeat_tail
    exact insert_point_mem R t p
  | cons r l1 ih =>
    cases r with
    | none => rfl
    | some s =>
      simp only [List.cons_append, read_sites]
      exact ih _

/-- The exit of a run on a file that opens tells the result of the validity
check. -/
theorem main_exit {T : Type} (L : SDG2 T) (stream : List (Option Site_2)) :
    (main L (some stream)).exit =
      if L.is_valid (read_sites L stream L.empty).1 true 1 then .returned 0
      else .assert_failed := by
  by_cases hv : L.is_valid (read_sites L stream L.empty).1 true 1 = true <;> simp [main, hv]

/-- The modelled primal holds one of the four primitives. -/
theorem primal_object_cases (K : Constructions) (a b c d : Option Site_2) :
    (classify a b c d = .Line ∧ primal_object K a b c d = .line (K.line a b c d)) ∨
    (classify a b c d = .Segment ∧ primal_object K a b c d = .segment (K.segment a b c d)) ∨
    (classify a b c d = .Ray ∧ primal_object K a b c d = .ray (K.ray a b c d)) ∨
    (classify a b c d = .ParabolicArc ∧
      primal_object K a b c d = .parabola_segment (K.parabola a b c d)) := by
  unfold primal_object
  cases classify a b c d <;> simp

/-- The kinds of the lines written for an object of the modelled primal. -/
theorem print_primal_object_kind (K : Constructions) (a b c d : Option Site_2) :
    (print_primal (primal_object K a b c d)).map Output.kind = [some (classify a b c d)] := by
  rcases primal_object_cases K a b c d with h | h | h | h <;>
    simp [h.1, h.2, print_primal, assign_line, assign_segment, assign_ray, assign_parabola,
      Output.kind]

/-- The resolutions of the four vertices of a quadruple. -/
theorem resolved_of_quadruple {T : Type} (L : SDG2 T) (sdg : T) (e : Edge)
    (a b c d : Vertex_handle) (hq : quadruple L sdg e = [a, b, c, d]) :
    resolved L sdg e 'A' = resolve L sdg a ∧ resolved L sdg e 'B' = resolve L sdg b ∧
    resolved L sdg e 'C' = resolve L sdg c ∧ resolved L sdg e 'D' = resolve L sdg d := by
  simp only [quadruple, List.cons.injEq, and_true] at hq
  obtain ⟨h1, h2, h3, h4⟩ := hq
  subst h1 h2 h3 h4
  simp [resolved, named_vertex, quadruple, vid, List.lookup]

/-- The predicate `parabolic` says that one site is a point, the other a
segment, and the point is no endpoint of the segment. -/
theorem parabolic_iff (a b : Option Site_2) :
    parabolic a b = true ↔
      ∃ p q1 q2, p ≠ q1 ∧ p ≠ q2 ∧
        ((a = some (.point p) ∧ b = some (.segment q1 q2)) ∨
         (b = some (.point p) ∧ a = some (.segment q1 q2))) := by
  constructor
  · intro h
    match a, b, h with
    | some (.point p), some (.segment q1 q2), h =>
      simp [parabolic] at h
      exact ⟨p, q1, q2, h.1, h.2, Or.inl ⟨rfl, rfl⟩⟩
    | some (.segment q1 q2), some (.point p), h =>
      simp [parabolic] at h
      exact ⟨p, q1, q2, h.1, h.2, Or.inr ⟨rfl, rfl⟩⟩
  · rintro ⟨p, q1, q2, h1, h2, ⟨ha, hb⟩ | ⟨hb, ha⟩⟩ <;> subst ha <;> subst hb <;>
      simp [parabolic, h1, h2]

/-- The trace of a run on records that all read: the insertions in order,
the validity check, the lines of the edge loop if the check passes. -/
theorem main_trace_all {T : Type} (L : SDG2 T) (sites : List Site_2) :
    (main L (some (sites.map some))).trace =
      sites.map Event.insert ++ Event.is_valid true 1 ::
        (if L.is_valid (sites.foldl (fun t s => (L.insert t s).1) L.empty) true 1 then
          (edge_loop L (sites.foldl (fun t s => (L.insert t s).1) L.empty)
            (L.finite_edges (sites.foldl (fun t s => (L.insert t s).1) L.empty))).map
            Event.print
        else []) := by
  by_cases hv : L.is_valid (sites.foldl (fun t s => (L.insert t s).1) L.empty) true 1 = true
  · simp [main, read_sites_all, hv]
  · simp [main, read_sites_all, hv]

/-- The sites inserted by a run on records that all read are the records. -/
theorem main_inserted_all {T : Type} (L : SDG2 T) (sites : List Site_2) :
    inserted (main L (some (sites.map some))).trace = sites := by
  rw [main_trace_all, inserted_append]
  by_cases hv : L.is_valid (sites.foldl (fun t s => (L.insert t s).1) L.empty) true 1 = true
  · simp [hv, inserted, inserted_map_insert, inserted_map_print]
  · simp [hv, inserted, inserted_map_insert]

/-! ## The properties of `main` -/

/-- C1, with the primal of §4.4: on every graph state and every edge, exactly
one of the four `assign` tests on `primal(e)` succeeds, and the body of the
edge loop writes exactly one line, which is a primitive; the edge loop writes
one line per edge visited, in the order of the traversal; a run of `main` that
returns writes exactly these lines for the finite edges of its graph, as many
lines as finite edges. -/
theorem one_record_per_finite_edge {T : Type} (L : SDG2 T) (K : Constructions) :
    (∀ sdg e,
      [ (assign_line ((with_primal_spec L K).primal sdg e)).isSome,
        (assign_segment ((with_primal_spec L K).primal sdg e)).isSome,
        (assign_ray ((with_primal_spec L K).primal sdg e)).isSome,
        (assign_parabola ((with_primal_spec L K).primal sdg e)).isSome ].count true = 1) ∧
    ∃ line_of : T → Edge → Output,
      (∀ sdg e, (line_of sdg e).kind.isSome = true ∧
        edge_body (with_primal_spec L K) sdg e = [line_of sdg e]) ∧
      (∀ sdg es, edge_loop (with_primal_spec L K) sdg es = es.map (line_of sdg)) ∧
      (∀ stream, (main (with_primal_spec L K) (some stream)).exit = .returned 0 →
        printed (main (with_primal_spec L K) (some stream)).trace =
          ((with_primal_spec L K).finite_edges
            (main (with_primal_spec L K) (some stream)).sdg).map
            (line_of (main (with_primal_spec L K) (some stream)).sdg) ∧
        (printed (main (with_primal_spec L K) (some stream)).trace).length =
          ((with_primal_spec L K).finite_edges
            (main (with_primal_spec L K) (some stream)).sdg).length) := by
  have hbody : ∀ sdg e, ∃ o, o.kind.isSome = true ∧
      edge_body (with_primal_spec L K) sdg e = [o] := by
    intro sdg e
    rw [edge_body_eq]
    simp only [with_primal_spec]
    rcases primal_object_cases K (resolved L sdg e 'A') (resolved L sdg e 'B')
      (resolved L sdg e 'C') (resolved L sdg e 'D') with h | h | h | h <;>
      simp [h.2, print_primal, assign_line, assign_segment, assign_ray, assign_parabola,
        Output.kind]
  refine ⟨?_, fun sdg e => (print_primal ((with_primal_spec L K).primal sdg e)).getD 0
    (Output.vertex_inf 'A'), ?_, ?_, ?_⟩
  · intro sdg e
    simp only [with_primal_spec]
    rcases primal_object_cases K (resolved L sdg e 'A') (resolved L sdg e 'B')
      (resolved L sdg e 'C') (resolved L sdg e 'D') with h | h | h | h <;>
      simp [h.2, assign_line, assign_segment, assign_ray, assign_parabola]
  · intro sdg e
    obtain ⟨o, ho, hb⟩ := hbody sdg e
    rw [edge_body_eq] at hb
    simp only [edge_body_eq, hb]
    exact ⟨by simpa using ho, by simp⟩
  · intro sdg es
    rw [edge_loop_eq]
    induction es with
    | nil => rfl
    | cons e es ih =>
      obtain ⟨o, _, hb⟩ := hbody sdg e
      rw [List.flatMap_cons, ih, List.map_cons, hb]
      rw [edge_body_eq] at hb
      simp [hb]
  · intro stream hexit
    have hv : L.is_valid (read_sites (with_primal_spec L K) stream L.empty).1 true 1 = true := by
      by_contra hv
      rw [main_exit] at hexit
      simp [with_primal_spec, hv] at hexit
      simp [with_primal_spec, hexit] at hv
    have hp := main_printed (with_primal_spec L K) stream
    rw [main_sdg]
    have hv2 : (with_primal_spec L K).is_valid
        (read_sites (with_primal_spec L K) stream (with_primal_spec L K).empty).1 true 1
          = true := hv
    rw [if_pos hv2] at hp
    have hl : ∀ sdg es, edge_loop (with_primal_spec L K) sdg es =
        es.map (fun e => (print_primal ((with_primal_spec L K).primal sdg e)).getD 0
          (Output.vertex_inf 'A')) := by
      intro sdg es
      rw [edge_loop_eq]
      induction es with
      | nil => rfl
      | cons e es ih =>
        obtain ⟨o, _, hb⟩ := hbody sdg e
        rw [List.flatMap_cons, ih, List.map_cons, hb]
        rw [edge_body_eq] at hb
        simp [hb]
    rw [hp, hl]
    exact ⟨rfl, by simp⟩

/-- A witness for C1: the run on the three sites of the scenario returns and
writes three lines, one for each of the three finite edges. -/
theorem one_record_per_finite_edge_witness :
    (main scenario (some [some site1, some site2, some site3])).exit = .returned 0 ∧
    (printed (main scenario (some [some site1, some site2, some site3])).trace).length =
      (scenario.finite_edges
        (main scenario (some [some site1, some site2, some site3])).sdg).length ∧
    (scenario.finite_edges
      (main scenario (some [some site1, some site2, some site3])).sdg).length = 3 :=
  ⟨by decide,
   (one_record_per_finite_edge scenario_base scenario_constructions).2.choose_spec.2.2
      [some site1, some site2, some site3] (by decide) |>.2,
   by decide⟩

/-- C2, with the primal of §4.4: for every edge, with (A, B, C, D) the
quadruple `v[0..3]` of `main`, the one line written for the edge is a Line
when both C and D are the infinite vertex, a Ray when exactly one of them is,
and, when both are finite, a ParabolicArc if one of A, B is a point site, the
other a segment site and the point is not an endpoint of the segment, and a
Segment otherwise. -/
theorem emitted_kind_follows_rule {T : Type} (L : SDG2 T) (K : Constructions) (sdg : T)
    (e : Edge) (a b c d : Vertex_handle) (hq : quadruple L sdg e = [a, b, c, d]) :
    (resolve L sdg c = none ∧ resolve L sdg d = none →
      (edge_body (with_primal_spec L K) sdg e).map Output.kind = [some .Line]) ∧
    ((resolve L sdg c = none ∧ resolve L sdg d ≠ none) ∨
      (resolve L sdg c ≠ none ∧ resolve L sdg d = none) →
      (edge_body (with_primal_spec L K) sdg e).map Output.kind = [some .Ray]) ∧
    (resolve L sdg c ≠ none ∧ resolve L sdg d ≠ none →
      ((∃ p q1 q2, p ≠ q1 ∧ p ≠ q2 ∧
          ((resolve L sdg a = some (.point p) ∧ resolve L sdg b = some (.segment q1 q2)) ∨
           (resolve L sdg b = some (.point p) ∧ resolve L sdg a = some (.segment q1 q2)))) →
        (edge_body (with_primal_spec L K) sdg e).map Output.kind = [some .ParabolicArc]) ∧
      ((¬ ∃ p q1 q2, p ≠ q1 ∧ p ≠ q2 ∧
          ((resolve L sdg a = some (.point p) ∧ resolve L sdg b = some (.segment q1 q2)) ∨
           (resolve L sdg b = some (.point p) ∧ resolve L sdg a = some (.segment q1 q2)))) →
        (edge_body (with_primal_spec L K) sdg e).map Output.kind = [some .Segment])) := by
  obtain ⟨ha, hb, hc, hd⟩ := resolved_of_quadruple L sdg e a b c d hq
  have hk : (edge_body (with_primal_spec L K) sdg e).map Output.kind =
      [some (classify (resolve L sdg a) (resolve L sdg b) (resolve L sdg c)
        (resolve L sdg d))] := by
    rw [edge_body_eq]
    simp only [with_primal_spec]
    rw [print_primal_object_kind, ha, hb, hc, hd]
  rw [hk]
  have hpar := parabolic_iff (resolve L sdg a) (resolve L sdg b)
  refine ⟨?_, ?_, ?_⟩
  · rintro ⟨h1, h2⟩
    simp [classify, h1, h2]
  · rintro (⟨h1, h2⟩ | ⟨h1, h2⟩)
    · cases hd' : resolve L sdg d with
      | none => exact absurd hd' h2
      | some x => simp [classify, h1]
    · cases hc' : resolve L sdg c with
      | none => exact absurd hc' h1
      | some x => simp [classify, h2]
  · rintro ⟨h1, h2⟩
    cases hc' : resolve L sdg c with
    | none => exact absurd hc' h1
    | some x =>
      cases hd' : resolve L sdg d with
      | none => exact absurd hd' h2
      | some y =>
        constructor
        · intro hm
          simp [classify, hpar.mpr hm]
        · intro hm
          have : parabolic (resolve L sdg a) (resolve L sdg b) = false := by
            cases hp : parabolic (resolve L sdg a) (resolve L sdg b) with
            | false => rfl
            | true => exact absurd (hpar.mp hp) hm
          simp [classify, this]

/-- A witness for C2: in the graph of the three sites of the scenario, the
edge `(0, 0)` has the quadruple (2, 3, 1, 0), D is the infinite vertex and C is
not, and the line written is a Ray. -/
theorem emitted_kind_follows_rule_witness :
    quadruple scenario_base [site1, site2, site3] (0, 0) = [2, 3, 1, 0] ∧
    (edge_body scenario [site1, site2, site3] (0, 0)).map Output.kind = [some .Ray] :=
  ⟨by decide,
   (emitted_kind_follows_rule scenario_base scenario_constructions [site1, site2, site3]
      (0, 0) 2 3 1 0 (by decide)).2.1 (Or.inr ⟨by decide, by decide⟩)⟩

/-- C3 as stated fails: in the graph of the three sites of the scenario, for
the finite edge `(0, 0)`, the vertices that `main` holds as C and as D (the
vertices 1 and 0) are not the two vertices of the edge (the vertices 2 and 3
of indices `ccw(0)` and `cw(0)`), and those it holds as A and B (2 and 3) are
not the vertex of index 0 and the mirror vertex (1 and 0). -/
theorem quadruple_naming_counterexample :
    (0, 0) ∈ scenario.finite_edges [site1, site2, site3] ∧
    ¬ ((named_vertex scenario [site1, site2, site3] (0, 0) 'C' =
          some (scenario.vertex [site1, site2, site3] 0 (scenario.ccw 0)) ∨
        named_vertex scenario [site1, site2, site3] (0, 0) 'C' =
          some (scenario.vertex [site1, site2, site3] 0 (scenario.cw 0))) ∧
       (named_vertex scenario [site1, site2, site3] (0, 0) 'A' =
          some (scenario.vertex [site1, site2, site3] 0 0) ∨
        named_vertex scenario [site1, site2, site3] (0, 0) 'A' =
          some (scenario.mirror_vertex [site1, site2, site3] 0 0))) ∧
    named_vertex scenario [site1, site2, site3] (0, 0) 'C' = some 1 ∧
    named_vertex scenario [site1, site2, site3] (0, 0) 'D' = some 0 ∧
    named_vertex scenario [site1, site2, site3] (0, 0) 'A' = some 2 ∧
    named_vertex scenario [site1, site2, site3] (0, 0) 'B' = some 3 ∧
    scenario.vertex [site1, site2, site3] 0 (scenario.ccw 0) = 2 ∧
    scenario.vertex [site1, site2, site3] 0 (scenario.cw 0) = 3 ∧
    scenario.vertex [site1, site2, site3] 0 0 = 1 ∧
    scenario.mirror_vertex [site1, site2, site3] 0 0 = 0 := by
  decide

/-- C3 as amended: for every edge `e = (f, i)`, the quadruple of `main` has A
and B equal to the two vertices of the edge itself, the vertices of `f` at the
indices `ccw(i)` and `cw(i)`, and C and D equal to the two vertices opposite
the edge, the vertex of `f` at index `i` and the mirror vertex of `f` across
`i`. -/
theorem quadruple_naming {T : Type} (L : SDG2 T) (sdg : T) (e : Edge) :
    named_vertex L sdg e 'A' = some (L.vertex sdg e.1 (L.ccw e.2)) ∧
    named_vertex L sdg e 'B' = some (L.vertex sdg e.1 (L.cw e.2)) ∧
    named_vertex L sdg e 'C' = some (L.vertex sdg e.1 e.2) ∧
    named_vertex L sdg e 'D' = some (L.mirror_vertex sdg e.1 e.2) := by
  simp [named_vertex, quadruple, vid, List.lookup]

/-- C4: for every sequence of records `s1 .. sn` that all read, the run of
`main` calls `insert` on `s1, .., sn` in this order, once each; the graph that
is checked and then traversed is the left fold of `insert` over the sequence
from the empty graph; the trace is the insertions, then the validity check,
then the lines of the edge loop, so that no insertion follows a line. -/
theorem sites_inserted_in_order {T : Type} (L : SDG2 T) (sites : List Site_2) :
    (main L (some (sites.map some))).sdg =
      sites.foldl (fun t s => (L.insert t s).1) L.empty ∧
    inserted (main L (some (sites.map some))).trace = sites ∧
    (main L (some (sites.map some))).trace =
      sites.map Event.insert ++ Event.is_valid true 1 ::
        (if L.is_valid (sites.foldl (fun t s => (L.insert t s).1) L.empty) true 1 then
          (edge_loop L (sites.foldl (fun t s => (L.insert t s).1) L.empty)
            (L.finite_edges (sites.foldl (fun t s => (L.insert t s).1) L.empty))).map
            Event.print
        else []) ∧
    (∀ pre post o, (main L (some (sites.map some))).trace = pre ++ Event.print o :: post →
      inserted pre = sites ∧ inserted post = []) := by
  have htrace := main_trace_all L sites
  have hins := main_inserted_all L sites
  refine ⟨?_, hins, htrace, ?_⟩
  · rw [main_sdg, read_sites_all]
  · intro pre post o hsplit
    -- the prefix before a line holds all the insertions: a line comes after the check
    have key : ∀ (ins : List Site_2) (outs : List Output) (pre post : List Event) (o : Output),
        ins.map Event.insert ++ Event.is_valid true 1 :: outs.map Event.print =
          pre ++ Event.print o :: post → inserted pre = ins ∧ inserted post = [] := by
      intro ins
      induction ins with
      | nil =>
        intro outs pre post o h
        cases pre with
        | nil => simp at h
        | cons ev pre =>
          simp only [List.map_nil, List.nil_append, List.cons_append, List.cons.injEq] at h
          obtain ⟨hev, hrest⟩ := h
          have h1 : inserted (outs.map Event.print) = inserted (pre ++ Event.print o :: post) := by
            rw [hrest]
          rw [inserted_map_print, inserted_append] at h1
          have h2 : inserted pre = [] ∧ inserted (Event.print o :: post) = [] := by
            simpa using h1.symm
          subst hev
          exact ⟨by simpa [inserted] using h2.1, by simpa [inserted] using h2.2⟩
      | cons s ins ih =>
        intro outs pre post o h
        cases pre with
        | nil => simp at h
        | cons ev pre =>
          simp only [List.map_cons, List.cons_append, List.cons.injEq] at h
          obtain ⟨hev, hrest⟩ := h
          obtain ⟨h1, h2⟩ := ih outs pre post o hrest
          subst hev
          exact ⟨by simp [inserted, h1], h2⟩
    rw [htrace] at hsplit
    by_cases hv : L.is_valid (sites.foldl (fun t s => (L.insert t s).1) L.empty) true 1 = true
    · rw [if_pos hv] at hsplit
      exact key sites _ pre post o hsplit
    · rw [if_neg hv] at hsplit
      have := key sites [] pre post o (by simpa using hsplit)
      exact this

/-- A witness for C4: the run on the three sites of the scenario inserts
them in order and ends with their graph. -/
theorem sites_inserted_in_order_witness :
    inserted (main scenario (some ([site1, site2, site3].map some))).trace =
      [site1, site2, site3] ∧
    (main scenario (some ([site1, site2, site3].map some))).sdg = [site1, site2, site3] :=
  ⟨(sites_inserted_in_order scenario [site1, site2, site3]).2.1,
   by decide⟩

/-- C5 as stated fails: on the stream of the three sites of the scenario, a
record that cannot be read and one more site, the run returns normally and
writes three lines, the three rays of the diagram of the three sites that
precede the failing record; the site after it is never inserted. -/
theorem failing_record_counterexample :
    none ∈ [some site1, some site2, some site3, none, some (Site_2.point ⟨5, 5⟩)] ∧
    (printed (main scenario
      (some [some site1, some site2, some site3, none,
        some (Site_2.point ⟨5, 5⟩)])).trace).map Output.kind =
      [some .Ray, some .Ray, some .Ray] ∧
    (main scenario
      (some [some site1, some site2, some site3, none,
        some (Site_2.point ⟨5, 5⟩)])).exit = .returned 0 ∧
    inserted (main scenario
      (some [some site1, some site2, some site3, none,
        some (Site_2.point ⟨5, 5⟩)])).trace = [site1, site2, site3] := by
  decide

/-- C5 as amended: when a record cannot be read, the reading loop ends at this
record and the run is the run on the sites that precede it: these sites are
inserted, the validity of their graph is checked and, if the check passes,
their diagram is written; the records after the failing one are not read, and
every line written is a primitive (none reports a site). -/
theorem failing_record_ends_reading {T : Type} (L : SDG2 T) (pre : List Site_2)
    (rest : List (Option Site_2)) :
    main L (some (pre.map some ++ none :: rest)) = main L (some (pre.map some)) ∧
    inserted (main L (some (pre.map some ++ none :: rest))).trace = pre ∧
    (∀ o ∈ printed (main L (some (pre.map some ++ none :: rest))).trace,
      o.tag.isSome = true) := by
  have h : main L (some (pre.map some ++ none :: rest)) = main L (some (pre.map some)) := by
    simp only [main, read_sites_stop]
  refine ⟨h, ?_, ?_⟩
  · rw [h]
    exact main_inserted_all L pre
  · intro o ho
    rw [main_printed] at ho
    split at ho
    · rw [edge_loop_eq] at ho
      obtain ⟨e, _, he⟩ := List.mem_flatMap.mp ho
      rw [edge_body_eq] at he
      exact print_primal_tag _ o he
    · simp at ho

/-- C6, where the code falls short of it: on the file of the three point
sites (0,0), (2,0), (1,2) the run returns and the finite edge `(0, 0)` of the
graph has D at the infinite vertex and A at the site (2,0); the test
`is_infinite` tells the two apart, and yet the output for the edge is one
ray: it holds neither the "at infinity" line for D nor the site line for A,
and no line of the whole run is a line for a vertex. -/
theorem vertex_report_missing :
    (main scenario (some [some site1, some site2, some site3])).exit = .returned 0 ∧
    (main scenario (some [some site1, some site2, some site3])).sdg =
      [site1, site2, site3] ∧
    (0, 0) ∈ scenario.finite_edges [site1, site2, site3] ∧
    quadruple scenario [site1, site2, site3] (0, 0) = [2, 3, 1, 0] ∧
    named_vertex scenario [site1, site2, site3] (0, 0) 'D' = some 0 ∧
    named_vertex scenario [site1, site2, site3] (0, 0) 'A' = some 2 ∧
    scenario.is_infinite [site1, site2, site3] 0 = true ∧
    scenario.is_infinite [site1, site2, site3] 2 = false ∧
    scenario.site [site1, site2, site3] 2 = site2 ∧
    Output.vertex_inf 'D' ∉ edge_body scenario [site1, site2, site3] (0, 0) ∧
    Output.vertex_site 'A' site2 ∉ edge_body scenario [site1, site2, site3] (0, 0) ∧
    (edge_body scenario [site1, site2, site3] (0, 0)).map Output.kind = [some .Ray] ∧
    (printed (main scenario (some [some site1, some site2, some site3])).trace).map
      Output.kind = [some .Ray, some .Ray, some .Ray] := by
  decide

/-- C8, with the `insert` of §4.2: for every triangulation `t` and every point
`p` that is the site of a vertex `v` of `t`, `insert` returns a vertex that
carries `p`, which is `v` when no other vertex carries `p`, and leaves `t`
unchanged, so that the vertices and the faces are as many as before; and the
run of `main` on a stream that repeats a point record writes the same lines,
and ends the same way, as on the stream without the repetition. -/
theorem insert_point_idempotent {X : Type} (R : Restructuring X)
    (L : SDG2 (Triangulation X)) :
    (∀ (t : Triangulation X) (p : Point_2) (v : Vertex_handle),
      t.sites[v]? = some (Site_2.point p) →
      ∃ v', (with_insert_spec R L).insert t (Site_2.point p) = (t, some v') ∧
        t.sites[v']? = some (Site_2.point p) ∧
        ((∀ u, t.sites[u]? = some (Site_2.point p) → u = v) → v' = v) ∧
        ((with_insert_spec R L).insert t (Site_2.point p)).1.sites.length = t.sites.length ∧
        ((with_insert_spec R L).insert t (Site_2.point p)).1.faces = t.faces) ∧
    (∀ (p : Point_2) (l1 l2 l3 : List (Option Site_2)),
      printed (main (with_insert_spec R L)
          (some (l1 ++ some (Site_2.point p) :: (l2 ++ some (Site_2.point p) :: l3)))).trace =
        printed (main (with_insert_spec R L)
          (some (l1 ++ some (Site_2.point p) :: (l2 ++ l3)))).trace ∧
      (main (with_insert_spec R L)
          (some (l1 ++ some (Site_2.point p) :: (l2 ++ some (Site_2.point p) :: l3)))).exit =
        (main (with_insert_spec R L)
          (some (l1 ++ some (Site_2.point p) :: (l2 ++ l3)))).exit ∧
      (main (with_insert_spec R L)
          (some (l1 ++ some (Site_2.point p) :: (l2 ++ some (Site_2.point p) :: l3)))).sdg =
        (main (with_insert_spec R L)
          (some (l1 ++ some (Site_2.point p) :: (l2 ++ l3)))).sdg) := by
  constructor
  · intro t p v hv
    have hmem : Site_2.point p ∈ t.sites := List.getElem?_mem hv
    have hidx : t.sites.indexOf (Site_2.point p) < t.sites.length :=
      List.indexOf_lt_length.mpr hmem
    have hget : t.sites[t.sites.indexOf (Site_2.point p)]? = some (Site_2.point p) := by
      rw [List.getElem?_eq_getElem hidx]
      simp
    refine ⟨t.sites.indexOf (Site_2.point p), ?_, hget, fun huniq => huniq _ hget, ?_, ?_⟩ <;>
      simp [with_insert_spec, insert_spec, insert_point_present R t p hmem]
  · intro p l1 l2 l3
    have hs := read_sites_repeat R L p l1 l2 l3 (with_insert_spec R L).empty
    refine ⟨?_, ?_, ?_⟩
    · rw [main_printed, main_printed, hs]
    · rw [main_exit, main_exit, hs]
    · rw [main_sdg, main_sdg, hs]

/-- A witness for C8: in a triangulation whose vertex 1 carries the point
(2,0), the insertion of (2,0) returns the vertex 1 and the triangulation. -/
theorem insert_point_idempotent_witness :
    (⟨[site1, site2], 4⟩ : Triangulation Nat).sites[1]? = some (Site_2.point ⟨2, 0⟩) ∧
    ∃ v', (with_insert_spec counting counting_base).insert ⟨[site1, site2], 4⟩
        (Site_2.point ⟨2, 0⟩) = (⟨[site1, site2], 4⟩, some v') ∧
      (⟨[site1, site2], 4⟩ : Triangulation Nat).sites[v']? = some (Site_2.point ⟨2, 0⟩) ∧
      ((∀ u, (⟨[site1, site2], 4⟩ : Triangulation Nat).sites[u]? =
          some (Site_2.point ⟨2, 0⟩) → u = 1) → v' = 1) ∧
      ((with_insert_spec counting counting_base).insert ⟨[site1, site2], 4⟩
        (Site_2.point ⟨2, 0⟩)).1.sites.length = 2 ∧
      ((with_insert_spec counting counting_base).insert ⟨[site1, site2], 4⟩
        (Site_2.point ⟨2, 0⟩)).1.faces = 4 :=
  ⟨by decide,
   (insert_point_idempotent counting counting_base).1 ⟨[site1, site2], 4⟩ ⟨2, 0⟩ 1
     (by decide)⟩

/-- C10: for every input, `main` writes a line only if the file opened and
the validity check, made with the arguments `(true, 1)` on the graph read,
returned true; the check is made once, after all the insertions and before
the first line; when the check returns false, or the file did not open, the
run ends on the failed `assert` with no line written. -/
theorem invalid_graph_is_fatal {T : Type} (L : SDG2 T)
    (ifs : Option (List (Option Site_2))) :
    (printed (main L ifs).trace ≠ [] →
      ∃ stream, ifs = some stream ∧
        L.is_valid (read_sites L stream L.empty).1 true 1 = true) ∧
    (ifs = none → (main L ifs).trace = [] ∧ (main L ifs).exit = .assert_failed) ∧
    (∀ stream, ifs = some stream →
      L.is_valid (read_sites L stream L.empty).1 true 1 = false →
      printed (main L ifs).trace = [] ∧ (main L ifs).exit = .assert_failed) ∧
    (∀ stream, ifs = some stream →
      ∃ outs : List Output,
        (main L ifs).trace =
          (inserted (read_sites L stream L.empty).2).map Event.insert ++
            Event.is_valid true 1 :: outs.map Event.print ∧
        ((main L ifs).exit = .returned 0 ↔
          L.is_valid (read_sites L stream L.empty).1 true 1 = true)) := by
  refine ⟨?_, ?_, ?_, ?_⟩
  · intro hne
    cases ifs with
    | none => simp [main, printed] at hne
    | some stream =>
      refine ⟨stream, rfl, ?_⟩
      by_contra hv
      rw [main_printed, if_neg hv] at hne
      exact hne rfl
  · intro h
    subst h
    simp [main]
  · intro stream h hv
    subst h
    rw [main_printed, main_exit]
    simp [hv]
  · intro stream h
    subst h
    rw [main_exit, ← read_sites_trace]
    by_cases hv : L.is_valid (read_sites L stream L.empty).1 true 1 = true
    · exact ⟨edge_loop L (read_sites L stream L.empty).1
        (L.finite_edges (read_sites L stream L.empty).1), by simp [main, hv], by simp [hv]⟩
    · exact ⟨[], by simp [main, hv], by simp [hv]⟩

/-- A witness for C10: with a validity check that fails, the run on the three
sites of the scenario writes no line and ends on the failed `assert`; with the
check of the scenario it writes lines. -/
theorem invalid_graph_is_fatal_witness :
    scenario_invalid.is_valid
      (read_sites scenario_invalid [some site1, some site2, some site3]
        scenario_invalid.empty).1 true 1 = false ∧
    (printed (main scenario_invalid (some [some site1, some site2, some site3])).trace = [] ∧
      (main scenario_invalid (some [some site1, some site2, some site3])).exit =
        .assert_failed) ∧
    printed (main scenario (some [some site1, some site2, some site3])).trace ≠ [] :=
  ⟨by decide,
   (invalid_graph_is_fatal scenario_invalid (some [some site1, some site2, some site3])).2.2.1
     [some site1, some site2, some site3] rfl (by decide),
   by decide⟩

end SdgVoronoiEdges
